import Mathlib

/-!
Go_hfs: the range-aware download handler of `main.go`

A shallow embedding of `downloadHandler`, `uploadHandler`,
`checkFilenameHandler` and `listFilesHandler` of `main.go`, together with the
parts of the Go standard library they call (`fmt.Sscanf` for the format
`bytes=%d-%d`, `strconv.FormatInt`, `filepath.Base`, `filepath.Join`, the
`http.ResponseWriter` contract, `http.Error`, `io.Copy`).

Go strings are modelled as lists of characters (runes); file contents and
response bodies as lists of bytes; `int64` values as integers, with the
64-bit bound made explicit where `strconv.ParseInt` checks it.
-/

namespace GoHfs

/-- A Go string, as its sequence of runes. -/
abbrev Str := List Char

/-- A byte of a file or of a response body. -/
abbrev Byte := UInt8

/-! ## Constants of `main.go` -/

/-- The constant `uploadPath` of `main.go`. -/
def uploadPath : Str := "./files".toList

/-! ## `strconv.FormatInt(i, 10)` and the verb `%d` of `fmt.Sprintf` -/

/-- The character of a decimal digit. -/
def digitChar (d : Nat) : Char := Char.ofNat (48 + d)

/-- Decimal digits of `n`, least significant first; the division loop of
`strconv.formatBits`, bounded by `fuel` iterations. -/
def digitsRev : Nat → Nat → List Char
  | 0, _ => []
  | fuel + 1, n =>
    digitChar (n % 10) :: (if n / 10 = 0 then [] else digitsRev fuel (n / 10))

/-- Decimal rendering of a natural number. -/
def formatNat (n : Nat) : Str := (digitsRev (n + 1) n).reverse

/-- The result of `strconv.FormatInt(i, 10)`: a minus sign for a negative
number, then the decimal digits. -/
def formatInt (i : Int) : Str :=
  if i < 0 then '-' :: formatNat (-i).toNat else formatNat i.toNat

/-! ## `fmt.Sscanf(rangeHeader, "bytes=%d-%d", &start, &end)` -/

/-- The predicate `isSpace` of package `fmt` (its table `space`). -/
def isSpace (c : Char) : Bool :=
  let r := c.toNat
  (0x0009 ≤ r && r ≤ 0x000d) || r == 0x0020 || r == 0x0085 || r == 0x00a0 ||
  r == 0x1680 || (0x2000 ≤ r && r ≤ 0x200a) || (0x2028 ≤ r && r ≤ 0x2029) ||
  r == 0x202f || r == 0x205f || r == 0x3000

/-- Membership in `decimalDigits = "0123456789"`. -/
def isDecimalDigit (c : Char) : Bool := 48 ≤ c.toNat && c.toNat ≤ 57

/-- Membership in `sign = "+-"`. -/
def isSign (c : Char) : Bool := c == '+' || c == '-'

/-- The method `(*ss).SkipSpace` with `nlIsSpace = false` (as `Sscanf` sets
it): spaces are skipped, a newline is the error "unexpected newline"
(`none`), anything else is left unread. -/
def skipSpace : Str → Option Str
  | [] => some []
  | c :: rest =>
    if c = '\r' ∧ rest.head? = some '\n' then skipSpace rest
    else if c = '\n' then none
    else if isSpace c then skipSpace rest
    else some (c :: rest)

/-- The value of a token of decimal digits, as `strconv.ParseUint` accumulates
it (before its overflow check). -/
def digitsValue (tok : Str) : Nat :=
  tok.foldl (fun acc c => acc * 10 + (c.toNat - 48)) 0

/-- The call `strconv.ParseInt(tok, 10, 64)` on a token made of an optional
sign and at least one decimal digit: `ParseUint` saturates at `2^64 - 1`, and
the result is a range error (`none`) beyond the `int64` cutoff `2^63`. -/
def parseInt64 (neg : Bool) (digits : Str) : Option Int :=
  let v := digitsValue digits
  let un := if v < 2 ^ 64 then v else 2 ^ 64 - 1
  let cutoff := 2 ^ 63
  if !neg && un ≥ cutoff then none
  else if neg && un > cutoff then none
  else some (if neg then -(un : Int) else (un : Int))

/-- The method `(*ss).scanInt('d', 64)`: skip spaces, fail at end of input,
accept one sign, require a digit, read all the digits, convert with
`ParseInt`.  Returns the value and the unread input, `none` for every
scan error.  (`doScanf` also calls `SkipSpace` right before the verb; skipping
twice is skipping once.) -/
def scanInt (input : Str) : Option (Int × Str) :=
  match skipSpace input with
  | none => none
  | some [] => none
  | some (c :: rest) =>
    let neg := c == '-'
    let afterSign := if isSign c then rest else c :: rest
    match afterSign with
    | [] => none
    | d :: _ =>
      if isDecimalDigit d then
        match parseInt64 neg (afterSign.takeWhile isDecimalDigit) with
        | none => none
        | some v => some (v, afterSign.dropWhile isDecimalDigit)
      else none

/-- The literal part of `(*ss).advance`: every rune of the format literal has
to be the next rune of the input; end of input or a different rune is an
error. -/
def advanceLiteral : Str → Str → Option Str
  | [], input => some input
  | _ :: _, [] => none
  | f :: fs, c :: rest => if f = c then advanceLiteral fs rest else none

/-- The values of `start` and `end` after
`fmt.Sscanf(rangeHeader, "bytes=%d-%d", &start, &end)`, both variables being
zero before the call (`stop` stands for the Go variable `end`).  A scan error
stops the scan: the operands not yet stored keep their zero value, and the
input after the second number is never looked at. -/
def sscanfRange (rangeHeader : Str) : Int × Int :=
  match advanceLiteral "bytes=".toList rangeHeader with
  | none => (0, 0)
  | some r1 =>
    match scanInt r1 with
    | none => (0, 0)
    | some (start, r2) =>
      match advanceLiteral "-".toList r2 with
      | none => (start, 0)
      | some r3 =>
        match scanInt r3 with
        | none => (start, 0)
        | some (stop, _) => (start, stop)

/-! ## `filepath.Base`, `filepath.Clean` and `filepath.Join` (Unix) -/

/-- The function `filepath.Base`: the empty path gives `"."`; trailing slashes
are stripped; what follows the last slash is kept; a path of slashes only
gives `"/"`. -/
def filepathBase (path : Str) : Str :=
  if path = [] then ".".toList
  else
    let stripped := (path.reverse.dropWhile (fun c => c == '/')).reverse
    let last := (stripped.reverse.takeWhile (fun c => c != '/')).reverse
    if last = [] then "/".toList else last

/-- The inner loop of the `..` case of `filepath.Clean`: starting from index
`w`, step back while `w > dotdot` and the buffer holds no separator at `w`. -/
def backtrackLoop (buf : Str) (dotdot : Nat) : Nat → Nat
  | 0 => 0
  | w + 1 =>
    if w + 1 > dotdot ∧ buf.get? (w + 1) ≠ some '/' then backtrackLoop buf dotdot w
    else w + 1

/-- The `..` case of `filepath.Clean` when it can backtrack: drop the last
element of the output buffer. -/
def backtrack (out : Str) (dotdot : Nat) : Str :=
  out.take (backtrackLoop out dotdot (out.length - 1))

/-- The main loop of `filepath.Clean` over the unread part of the path, with
the output buffer `out` and the index `dotdot` where `..` must stop.  Every
iteration reads at least one byte, so `fuel` bounds the iterations. -/
def cleanLoop (rooted : Bool) : Nat → Str → Str → Nat → Str
  | 0, _, out, _ => out
  | fuel + 1, rest, out, dotdot =>
    match rest with
    | [] => out
    | c :: tl =>
      if c = '/' then
        cleanLoop rooted fuel tl out dotdot
      else if c = '.' ∧ (tl = [] ∨ tl.head? = some '/') then
        cleanLoop rooted fuel tl out dotdot
      else if c = '.' ∧ tl.head? = some '.' ∧
          (tl.tail = [] ∨ tl.tail.head? = some '/') then
        if out.length > dotdot then
          cleanLoop rooted fuel tl.tail (backtrack out dotdot) dotdot
        else if !rooted then
          let out1 := (if out.length > 0 then out ++ ['/'] else out) ++ ['.', '.']
          cleanLoop rooted fuel tl.tail out1 out1.length
        else
          cleanLoop rooted fuel tl.tail out dotdot
      else
        let out1 :=
          if (rooted ∧ out.length ≠ 1) ∨ (¬ rooted ∧ out.length ≠ 0) then out ++ ['/']
          else out
        cleanLoop rooted fuel ((c :: tl).dropWhile (fun x => x != '/'))
          (out1 ++ (c :: tl).takeWhile (fun x => x != '/')) dotdot

/-- The function `filepath.Clean` on Unix (no volume name, separator `/`). -/
def filepathClean (path : Str) : Str :=
  if path = [] then ".".toList
  else
    let rooted := path.head? == some '/'
    let out :=
      if rooted then cleanLoop true path.length path.tail ['/'] 1
      else cleanLoop false path.length path [] 0
    if out = [] then ".".toList else out

/-- The call `filepath.Join(a, b)`: the elements from the first non-empty one
on are joined with `/` and cleaned. -/
def filepathJoin (a b : Str) : Str :=
  if a ≠ [] then filepathClean (a ++ '/' :: b)
  else if b ≠ [] then filepathClean b
  else []

/-! ## The `http.ResponseWriter` contract -/

/-- State of an `http.ResponseWriter`: the header map the handler edits through
`w.Header()`, whether the status line has been committed, the committed status,
the headers committed with it, and the body bytes written. -/
structure ResponseWriter where
  header : List (Str × Str)
  wroteHeader : Bool
  status : Nat
  sentHeader : List (Str × Str)
  body : List Byte
deriving DecidableEq

/-- A fresh response writer, as the server hands it to a handler. -/
def ResponseWriter.new : ResponseWriter :=
  { header := [], wroteHeader := false, status := 0, sentHeader := [], body := [] }

/-- The lookup of a key in a header map (`none` when the key is absent). -/
def headerGet (h : List (Str × Str)) (key : Str) : Option Str :=
  match h with
  | [] => none
  | (k, v) :: rest => if k = key then some v else headerGet rest key

/-- The call `h.Del(key)`. -/
def headerDel (h : List (Str × Str)) (key : Str) : List (Str × Str) :=
  h.filter (fun kv => kv.1 ≠ key)

/-- The call `w.Header().Set(key, value)`: the key's entry is replaced. -/
def ResponseWriter.setHeader (w : ResponseWriter) (key value : Str) : ResponseWriter :=
  { w with header := (key, value) :: headerDel w.header key }

/-- The call `w.Header().Del(key)`. -/
def ResponseWriter.delHeader (w : ResponseWriter) (key : Str) : ResponseWriter :=
  { w with header := headerDel w.header key }

/-- The call `w.WriteHeader(code)`: the first call commits the status and the
header map as it is at that moment; later calls change nothing. -/
def ResponseWriter.writeHeader (w : ResponseWriter) (code : Nat) : ResponseWriter :=
  if w.wroteHeader then w
  else { w with wroteHeader := true, status := code, sentHeader := w.header }

/-- The call `w.Write(data)`: an implicit `WriteHeader(200)` when none was
made, then the bytes are appended to the body. -/
def ResponseWriter.write (w : ResponseWriter) (data : List Byte) : ResponseWriter :=
  let w1 := w.writeHeader 200
  { w1 with body := w1.body ++ data }

/-- What the server does when the handler returns: a response whose status was
never committed is committed with status 200. -/
def ResponseWriter.finish (w : ResponseWriter) : ResponseWriter :=
  w.writeHeader 200

/-- The bytes of a string (its UTF-8 encoding). -/
def utf8Bytes (s : Str) : List Byte := s.flatMap String.utf8EncodeChar

/-- The function `http.Error(w, msg, code)`: drop `Content-Length`, set the
plain-text content type and `nosniff`, commit `code`, write `msg` and a
newline. -/
def httpError (w : ResponseWriter) (msg : Str) (code : Nat) : ResponseWriter :=
  let w := w.delHeader "Content-Length".toList
  let w := w.setHeader "Content-Type".toList "text/plain; charset=utf-8".toList
  let w := w.setHeader "X-Content-Type-Options".toList "nosniff".toList
  let w := w.writeHeader code
  w.write (utf8Bytes (msg ++ ['\n']))

/-- The call `io.Copy(w, src)` where `data` is what `src` yields until end of
file: the bytes are written in order; a source with nothing left makes no
`Write` call at all. -/
def ioCopy (w : ResponseWriter) (data : List Byte) : ResponseWriter :=
  if data = [] then w else w.write data

/-! ## The file system -/

/-- A node of the file system: whether `os.Open` succeeds on it, the size
`Stat` reports for the opened file (`none` when `Stat` fails), and the bytes a
reader gets from offset 0 to end of file. -/
structure FileNode where
  readable : Bool
  statSize : Option Int
  data : List Byte
deriving DecidableEq

/-- A file-system state: the node at each (cleaned) path, `none` where nothing
exists. -/
abbrev FS := Str → Option FileNode

/-- The call `os.Open(path)`: fails on a missing path and on a node that cannot
be opened for reading. -/
def osOpen (fs : FS) (path : Str) : Option FileNode :=
  match fs path with
  | none => none
  | some node => if node.readable then some node else none

/-- Whether `os.Stat(path)` returns no error: exactly the existing paths. -/
def osStat (fs : FS) (path : Str) : Bool := (fs path).isSome

/-- The file system after the node at `path` is set to `node`. -/
def fsPut (fs : FS) (path : Str) (node : FileNode) : FS :=
  fun p => if p = path then some node else fs p

/-- The file system after `os.Remove(path)`. -/
def fsRemove (fs : FS) (path : Str) : FS :=
  fun p => if p = path then none else fs p

/-- A regular file holding `content`. -/
def regularFile (content : List Byte) : FileNode :=
  { readable := true, statSize := some (content.length : Int), data := content }

/-- A stored file: a node of the storage directory that opens, and whose
reported size is the length of its content, within `int64`. -/
def StoredFile (node : FileNode) (n : Int) : Prop :=
  node.readable = true ∧ node.statSize = some n ∧ n = (node.data.length : Int) ∧ n < 2 ^ 63

/-! ## Requests -/

/-- The parts of an `*http.Request` the handlers read: the method,
`r.URL.Path`, `r.Header.Get("Range")` (empty when the header is absent),
`r.URL.Query().Get("filename")`, whether `r.ParseMultipartForm` succeeds, and
the result of `r.FormFile("file")` (the error text, or `header.Filename` with
the uploaded bytes). -/
structure Request where
  method : Str
  urlPath : Str
  range : Str
  queryFilename : Str
  multipartOk : Bool
  formFile : Except Str (Str × List Byte)

/-- A `GET` request for `urlPath` with the given `Range` header value. -/
def Request.get (urlPath range : Str) : Request :=
  { method := "GET".toList, urlPath := urlPath, range := range,
    queryFilename := [], multipartOk := false, formFile := .error [] }

/-! ## `downloadHandler` -/

/-- The handler `downloadHandler` of `main.go`, as a transformation of the
response writer (`stop` stands for the Go variable `end`).  The range branch
either returns early with 416 (`none`) or falls through, like the branch
without a range, to the two `Set` calls and `io.Copy` on what is left to read
of the file. -/
def downloadHandler (fs : FS) (r : Request) (w : ResponseWriter) : ResponseWriter :=
  let filename := filepathBase r.urlPath
  let filePath := filepathJoin uploadPath filename
  match osOpen fs filePath with
  | none => httpError w "File not found".toList 404
  | some file =>
    match file.statSize with
    | none => httpError w "Failed to get file info".toList 500
    | some fileSize =>
      let rangeHeader := r.range
      let afterRange : Option (ResponseWriter × List Byte) :=
        if rangeHeader ≠ [] then
          let scanned := sscanfRange rangeHeader
          let start := scanned.1
          let stop := if scanned.2 = 0 then fileSize - 1 else scanned.2
          if start > stop ∨ start < 0 ∨ stop ≥ fileSize then
            none
          else
            let w := w.setHeader "Content-Range".toList
              ("bytes ".toList ++ formatInt start ++ "-".toList ++ formatInt stop ++
                "/".toList ++ formatInt fileSize)
            let w := w.setHeader "Content-Length".toList (formatInt (stop - start + 1))
            let w := w.writeHeader 206
            some (w, file.data.drop start.toNat)
        else
          some (w.setHeader "Content-Length".toList (formatInt fileSize), file.data)
      match afterRange with
      | none => w.writeHeader 416
      | some (w, unread) =>
        let w := w.setHeader "Content-Type".toList "application/octet-stream".toList
        let w := w.setHeader "Content-Disposition".toList
          ("attachment; filename=".toList ++ filename)
        ioCopy w unread

/-- The response to a download request: the handler runs on a fresh response
writer and the server finishes the response. -/
def serveDownload (fs : FS) (r : Request) : ResponseWriter :=
  (downloadHandler fs r ResponseWriter.new).finish

/-! ## Notions used in the statements -/

/-- The file `hello.txt` of the specification's scenarios. -/
def helloContent : List Byte := utf8Bytes "Hello, World!".toList

/-- A storage directory holding only `hello.txt`. -/
def helloFS : FS :=
  fun p => if p = "files/hello.txt".toList then some (regularFile helloContent) else none

/-- The header value `bytes=<start>-<end>` with both numbers in decimal. -/
def rangeValue (start stop : Int) : Str :=
  "bytes=".toList ++ formatInt start ++ '-' :: formatInt stop

/-- The open-ended header value `bytes=<start>-`. -/
def openRangeValue (start : Int) : Str :=
  "bytes=".toList ++ formatInt start ++ ['-']

/-- A string that does not go on with a decimal digit. -/
def NoDigitAhead (rest : Str) : Prop :=
  ∀ c, rest.head? = some c → isDecimalDigit c = false

/-- The values of `int64`. -/
def IsInt64 (i : Int) : Prop := -(2 ^ 63) ≤ i ∧ i < 2 ^ 63

instance (i : Int) : Decidable (IsInt64 i) := by unfold IsInt64; infer_instance

/-- The path `downloadHandler` opens for a request URL path. -/
def resourcePath (urlPath : Str) : Str :=
  filepathJoin uploadPath (filepathBase urlPath)

/-- The end offset the handler works with: a scanned end of zero is replaced by
`fileSize - 1`. -/
def effectiveEnd (fileSize stop : Int) : Int :=
  if stop = 0 then fileSize - 1 else stop

instance (node : FileNode) (n : Int) : Decidable (StoredFile node n) := by
  unfold StoredFile; infer_instance

/-- The request for `hello.txt` with the given `Range` header value. -/
def helloRequest (range : Str) : Request :=
  Request.get "/download/hello.txt".toList range

/-- A cleaned relative path that denotes the storage root `./files` or
something below it. -/
def InsideStorageRoot (path : Str) : Prop :=
  path = "files".toList ∨ "files/".toList <+: path

instance (path : Str) : Decidable (InsideStorageRoot path) := by
  unfold InsideStorageRoot; infer_instance

/-- A directory: it opens, `Stat` reports some size, reading it yields no
byte. -/
def directoryNode : FileNode :=
  { readable := true, statSize := some 4096, data := [] }

/-- A file system in which the storage root `files` is an empty directory of
the working directory `.`, which also holds `secret.txt`. -/
def workingDirFS : FS :=
  fun p =>
    if p = ".".toList then some directoryNode
    else if p = "files".toList then some directoryNode
    else if p = "secret.txt".toList then some (regularFile (utf8Bytes "secret".toList))
    else none

/-! ## `uploadHandler`, `checkFilenameHandler`, `listFilesHandler` -/

/-- What the environment decides during a request: whether `os.Create` fails
(with which error text), whether `io.Copy` to the new file fails (after how
many bytes, with which error text), whether `os.Remove` fails, and the bytes
the listing template produces. -/
structure Env where
  createError : Option Str
  copyError : Option (Nat × Str)
  removeFails : Bool
  listPage : List Byte

/-- The handler `uploadHandler` of `main.go`: the file system after the request
and the response writer. -/
def uploadHandler (env : Env) (fs : FS) (r : Request) (w : ResponseWriter) :
    FS × ResponseWriter :=
  if r.method ≠ "POST".toList then
    (fs, httpError w "Method not allowed".toList 405)
  else if r.multipartOk = false then
    (fs, httpError w "File too large".toList 400)
  else
    match r.formFile with
    | .error msg => (fs, httpError w msg 400)
    | .ok (filename, content) =>
      let filePath := filepathJoin uploadPath filename
      if osStat fs filePath then
        (fs, httpError w "File already exists".toList 400)
      else
        match env.createError with
        | some msg => (fs, httpError w msg 500)
        | none =>
          let fs := fsPut fs filePath (regularFile [])
          match env.copyError with
          | some (written, msg) =>
            let fs := fsPut fs filePath (regularFile (content.take written))
            let fs := if env.removeFails then fs else fsRemove fs filePath
            (fs, httpError w msg 500)
          | none =>
            (fsPut fs filePath (regularFile content), w.writeHeader 200)

/-- The handler `checkFilenameHandler` of `main.go`. -/
def checkFilenameHandler (fs : FS) (r : Request) (w : ResponseWriter) :
    FS × ResponseWriter :=
  let filename := r.queryFilename
  if filename = [] then
    (fs, httpError w "Filename is required".toList 400)
  else
    let filePath := filepathJoin uploadPath filename
    let fileExists := osStat fs filePath
    let w := w.setHeader "Content-Type".toList "application/json".toList
    (fs, w.write (utf8Bytes
      (if fileExists then "\x7b\"exists\":true\x7d\n".toList else "\x7b\"exists\":false\x7d\n".toList)))

/-- The handler `listFilesHandler` of `main.go`: `filepath.Glob` on the pattern
`files/*` only reads the directory and cannot fail on this pattern; the page is
the output of the template, which the environment supplies. -/
def listFilesHandler (env : Env) (fs : FS) (_r : Request) (w : ResponseWriter) :
    FS × ResponseWriter :=
  (fs, ioCopy w env.listPage)

/-- The four routes registered in `main`. -/
inductive Route where
  | listFiles
  | upload
  | download
  | checkFilename
deriving DecidableEq

/-- One invocation of a handler: the file system afterwards and the finished
response. -/
def invoke (route : Route) (env : Env) (fs : FS) (r : Request) : FS × ResponseWriter :=
  let result :=
    match route with
    | .listFiles => listFilesHandler env fs r ResponseWriter.new
    | .upload => uploadHandler env fs r ResponseWriter.new
    | .download => (fs, downloadHandler fs r ResponseWriter.new)
    | .checkFilename => checkFilenameHandler fs r ResponseWriter.new
  (result.1, result.2.finish)

/-- An environment without failures. -/
def calmEnv : Env :=
  { createError := none, copyError := none, removeFails := false, listPage := [] }

/-- An environment in which the copy to the new file fails after three bytes. -/
def failingCopyEnv : Env :=
  { createError := none, copyError := some (3, "write error".toList), removeFails := false,
    listPage := [] }

/-- An upload of `content` under `filename`. -/
def uploadRequest (filename : Str) (content : List Byte) : Request :=
  { method := "POST".toList, urlPath := "/upload".toList, range := [],
    queryFilename := [], multipartOk := true, formFile := .ok (filename, content) }

/-! ## Decimal rendering and scanning -/

theorem digitChar_toNat (d : Nat) (h : d < 10) : (digitChar d).toNat = 48 + d := by
  interval_cases d <;> rfl

theorem digitChar_isDecimalDigit (d : Nat) (h : d < 10) :
    isDecimalDigit (digitChar d) = true := by
  interval_cases d <;> rfl

theorem digitChar_not_isSpace (d : Nat) (h : d < 10) : isSpace (digitChar d) = false := by
  interval_cases d <;> rfl

theorem digitChar_not_isSign (d : Nat) (h : d < 10) : isSign (digitChar d) = false := by
  interval_cases d <;> rfl

theorem digitsRev_all_digits (fuel n : Nat) :
    ∀ c ∈ digitsRev fuel n, isDecimalDigit c = true := by
  induction fuel generalizing n with
  | zero => intro c hc; simp [digitsRev] at hc
  | succ f ih =>
    intro c hc
    simp only [digitsRev, List.mem_cons] at hc
    rcases hc with hc | hc
    · rw [hc]; exact digitChar_isDecimalDigit _ (Nat.mod_lt _ (by decide))
    · split at hc
      · simp at hc
      · exact ih _ c hc

theorem digitsRev_value (fuel n : Nat) (h : n < fuel) :
    (digitsRev fuel n).foldr (fun c acc => acc * 10 + (c.toNat - 48)) 0 = n := by
  induction fuel generalizing n with
  | zero => omega
  | succ f ih =>
    simp only [digitsRev, List.foldr_cons]
    rw [digitChar_toNat _ (Nat.mod_lt _ (by decide))]
    by_cases h0 : n / 10 = 0
    · simp only [h0, if_true, List.foldr_nil]
      omega
    · simp only [h0, if_false]
      rw [ih (n / 10) (by omega)]
      omega

theorem formatNat_all_digits (n : Nat) : ∀ c ∈ formatNat n, isDecimalDigit c = true := by
  intro c hc
  unfold formatNat at hc
  exact digitsRev_all_digits _ _ c (List.mem_reverse.mp hc)

theorem formatNat_ne_nil (n : Nat) : formatNat n ≠ [] := by
  simp [formatNat, digitsRev]

theorem digitsValue_formatNat (n : Nat) : digitsValue (formatNat n) = n := by
  unfold digitsValue formatNat
  rw [List.foldl_reverse]
  exact digitsRev_value (n + 1) n (Nat.lt_succ_self n)

theorem takeWhile_digits_append (l rest : Str)
    (hl : ∀ c ∈ l, isDecimalDigit c = true) (hr : NoDigitAhead rest) :
    (l ++ rest).takeWhile isDecimalDigit = l ∧ (l ++ rest).dropWhile isDecimalDigit = rest := by
  induction l with
  | nil =>
    cases rest with
    | nil => simp
    | cons c r =>
      have := hr c rfl
      simp [List.takeWhile, List.dropWhile, this]
  | cons a l ih =>
    have ha := hl a (List.mem_cons_self _ _)
    have := ih (fun c hc => hl c (List.mem_cons_of_mem _ hc))
    simp [List.takeWhile, List.dropWhile, ha, this]

theorem skipSpace_of_not_space (c : Char) (rest : Str)
    (h1 : isSpace c = false) : skipSpace (c :: rest) = some (c :: rest) := by
  have hr : c ≠ '\r' := by rintro rfl; exact absurd h1 (by decide)
  have hn : c ≠ '\n' := by rintro rfl; exact absurd h1 (by decide)
  simp [skipSpace, hr, hn, h1]

theorem formatNat_head (n : Nat) :
    ∃ d tl, formatNat n = d :: tl ∧ isDecimalDigit d = true := by
  cases h : formatNat n with
  | nil => exact absurd h (formatNat_ne_nil n)
  | cons d tl =>
    exact ⟨d, tl, rfl, formatNat_all_digits n d (by rw [h]; exact List.mem_cons_self _ _)⟩

theorem isDecimalDigit_not_space (c : Char) (h : isDecimalDigit c = true) :
    isSpace c = false ∧ isSign c = false := by
  simp only [isDecimalDigit, Bool.and_eq_true, decide_eq_true_eq] at h
  obtain ⟨h1, h2⟩ := h
  have hc : c = Char.ofNat c.toNat := by simp
  have : c.toNat - 48 < 10 := by omega
  have hd : c = digitChar (c.toNat - 48) := by
    unfold digitChar
    rw [show 48 + (c.toNat - 48) = c.toNat by omega]
    exact hc
  rw [hd]
  exact ⟨digitChar_not_isSpace _ this, digitChar_not_isSign _ this⟩

/-- Scanning a non-negative `int64` written in decimal gives the number back
and leaves the unread input. -/
theorem scanInt_formatNat (n : Nat) (rest : Str) (hn : n < 2 ^ 63)
    (hr : NoDigitAhead rest) :
    scanInt (formatNat n ++ rest) = some ((n : Int), rest) := by
  obtain ⟨d, tl, hd, hdig⟩ := formatNat_head n
  obtain ⟨hsp, hsg⟩ := isDecimalDigit_not_space d hdig
  have htw := takeWhile_digits_append (formatNat n) rest (formatNat_all_digits n) hr
  have hneg : (d == '-') = false := by
    simp only [isSign, Bool.or_eq_false_iff] at hsg
    exact hsg.2
  unfold scanInt
  rw [hd, List.cons_append, skipSpace_of_not_space d _ hsp]
  simp only [hsg, hneg, Bool.false_eq_true, if_false, hdig, if_true]
  rw [← List.cons_append, ← hd, htw.1, htw.2]
  have hv : parseInt64 false (formatNat n) = some (n : Int) := by
    unfold parseInt64
    rw [digitsValue_formatNat]
    have h64 : n < 2 ^ 64 := by omega
    simp only [h64, if_true]
    simp
    omega
  rw [hv]

/-- Scanning a negative `int64` written in decimal gives the number back. -/
theorem scanInt_neg_formatNat (m : Nat) (rest : Str) (hm : m ≤ 2 ^ 63)
    (hr : NoDigitAhead rest) :
    scanInt ('-' :: formatNat m ++ rest) = some (-(m : Int), rest) := by
  obtain ⟨d, tl, hd, hdig⟩ := formatNat_head m
  have htw := takeWhile_digits_append (formatNat m) rest (formatNat_all_digits m) hr
  have hsp : isSpace '-' = false := by decide
  unfold scanInt
  rw [List.cons_append, skipSpace_of_not_space '-' _ hsp]
  have hsg : isSign '-' = true := by decide
  simp only [hsg, if_true]
  rw [hd, List.cons_append]
  simp only [hdig, if_true]
  rw [← List.cons_append, ← hd, htw.1, htw.2]
  have hv : parseInt64 ('-' == '-') (formatNat m) = some (-(m : Int)) := by
    unfold parseInt64
    rw [digitsValue_formatNat]
    have h64 : m < 2 ^ 64 := by omega
    simp only [h64, if_true]
    simp
    omega
  rw [hv]

/-- Scanning with `%d` reads back any `int64` written by `FormatInt`. -/
theorem scanInt_formatInt (i : Int) (rest : Str) (hi : IsInt64 i) (hr : NoDigitAhead rest) :
    scanInt (formatInt i ++ rest) = some (i, rest) := by
  obtain ⟨hlo, hhi⟩ := hi
  unfold formatInt
  by_cases hneg : i < 0
  · simp only [hneg, if_true]
    have := scanInt_neg_formatNat (-i).toNat rest (by omega) hr
    rw [this]
    congr 2
    omega
  · simp only [hneg, if_false]
    have := scanInt_formatNat i.toNat rest (by omega) hr
    rw [this]
    congr 2
    omega

theorem advanceLiteral_append (lit rest : Str) : advanceLiteral lit (lit ++ rest) = some rest := by
  induction lit with
  | nil => cases rest <;> rfl
  | cons f fs ih => simp [advanceLiteral, ih]

theorem noDigitAhead_nil : NoDigitAhead [] := by
  intro c hc; simp at hc

theorem noDigitAhead_cons (c : Char) (rest : Str) (h : isDecimalDigit c = false) :
    NoDigitAhead (c :: rest) := by
  intro d hd
  simp only [List.head?_cons, Option.some.injEq] at hd
  rw [← hd]; exact h

/-- The scan of a header `bytes=<start>-<end>` followed by anything that does not
go on with a digit stores exactly the two numbers written. -/
theorem sscanfRange_rangeValue_append (start stop : Int) (suffix : Str)
    (hs : IsInt64 start) (he : IsInt64 stop) (hsuf : NoDigitAhead suffix) :
    sscanfRange (rangeValue start stop ++ suffix) = (start, stop) := by
  unfold sscanfRange rangeValue
  rw [List.append_assoc, List.append_assoc, advanceLiteral_append]
  simp only []
  rw [List.cons_append, scanInt_formatInt start _ hs (noDigitAhead_cons _ _ (by decide))]
  simp only []
  rw [show ('-' :: (formatInt stop ++ suffix)) = "-".toList ++ (formatInt stop ++ suffix) from rfl,
    advanceLiteral_append]
  simp only []
  rw [scanInt_formatInt stop _ he hsuf]

theorem sscanfRange_rangeValue (start stop : Int) (hs : IsInt64 start) (he : IsInt64 stop) :
    sscanfRange (rangeValue start stop) = (start, stop) := by
  have := sscanfRange_rangeValue_append start stop [] hs he noDigitAhead_nil
  rwa [List.append_nil] at this

/-- The scan of the open-ended header `bytes=<start>-` stores the start and
leaves the end at zero. -/
theorem sscanfRange_openRangeValue (start : Int) (hs : IsInt64 start) :
    sscanfRange (openRangeValue start) = (start, 0) := by
  unfold sscanfRange openRangeValue
  rw [List.append_assoc, advanceLiteral_append]
  simp only []
  rw [scanInt_formatInt start _ hs (noDigitAhead_cons _ _ (by decide))]
  simp only []
  rw [show ['-'] = "-".toList ++ [] from rfl, advanceLiteral_append]
  rfl

theorem rangeValue_ne_nil (start stop : Int) : rangeValue start stop ≠ [] := by
  simp [rangeValue]

theorem openRangeValue_ne_nil (start : Int) : openRangeValue start ≠ [] := by
  simp [openRangeValue]

/-! ## Evaluation of `downloadHandler` -/

/-- The response to a request with a non-empty `Range` header whose effective
range fails the handler's validation. -/
theorem serveDownload_unsatisfiable (fs : FS) (r : Request) (file : FileNode) (n : Int)
    (hopen : osOpen fs (resourcePath r.urlPath) = some file)
    (hsize : file.statSize = some n) (hne : r.range ≠ [])
    (hbad : (sscanfRange r.range).1 > effectiveEnd n (sscanfRange r.range).2 ∨
      (sscanfRange r.range).1 < 0 ∨ effectiveEnd n (sscanfRange r.range).2 ≥ n) :
    serveDownload fs r =
      { header := [], wroteHeader := true, status := 416, sentHeader := [], body := [] } := by
  unfold resourcePath at hopen
  unfold effectiveEnd at hbad
  simp only [serveDownload, downloadHandler, hopen, hsize, hne, ne_eq, not_false_eq_true,
    if_true, hbad]
  rfl

/-- The response to a request with a non-empty `Range` header whose effective
range passes the handler's validation. -/
theorem serveDownload_satisfiable (fs : FS) (r : Request) (file : FileNode) (n : Int)
    (hopen : osOpen fs (resourcePath r.urlPath) = some file)
    (hsize : file.statSize = some n) (hne : r.range ≠ [])
    (hok : ¬ ((sscanfRange r.range).1 > effectiveEnd n (sscanfRange r.range).2 ∨
      (sscanfRange r.range).1 < 0 ∨ effectiveEnd n (sscanfRange r.range).2 ≥ n)) :
    serveDownload fs r =
      let start := (sscanfRange r.range).1
      let stop := effectiveEnd n (sscanfRange r.range).2
      let committed : List (Str × Str) :=
        [("Content-Length".toList, formatInt (stop - start + 1)),
         ("Content-Range".toList, "bytes ".toList ++ formatInt start ++ "-".toList ++
            formatInt stop ++ "/".toList ++ formatInt n)]
      { header := [("Content-Disposition".toList,
            "attachment; filename=".toList ++ filepathBase r.urlPath),
          ("Content-Type".toList, "application/octet-stream".toList)] ++ committed,
        wroteHeader := true, status := 206, sentHeader := committed,
        body := file.data.drop start.toNat } := by
  unfold resourcePath at hopen
  unfold effectiveEnd at hok
  simp only [serveDownload, downloadHandler, hopen, hsize, hne, ne_eq, not_false_eq_true,
    if_true, hok, if_false, effectiveEnd]
  simp only [ioCopy, ResponseWriter.finish, ResponseWriter.write, ResponseWriter.writeHeader,
    ResponseWriter.setHeader, ResponseWriter.new, headerDel]
  split <;> simp_all

/-- The response to a request without a `Range` header (or with an empty one)
for a file that opens and whose size is read. -/
theorem serveDownload_whole (fs : FS) (r : Request) (file : FileNode) (n : Int)
    (hopen : osOpen fs (resourcePath r.urlPath) = some file)
    (hsize : file.statSize = some n) (hr : r.range = []) :
    serveDownload fs r =
      { header := [("Content-Disposition".toList,
            "attachment; filename=".toList ++ filepathBase r.urlPath),
          ("Content-Type".toList, "application/octet-stream".toList),
          ("Content-Length".toList, formatInt n)],
        wroteHeader := true, status := 200,
        sentHeader := [("Content-Disposition".toList,
            "attachment; filename=".toList ++ filepathBase r.urlPath),
          ("Content-Type".toList, "application/octet-stream".toList),
          ("Content-Length".toList, formatInt n)],
        body := file.data } := by
  unfold resourcePath at hopen
  simp only [serveDownload, downloadHandler, hopen, hsize, hr, ne_eq, not_true_eq_false,
    if_false]
  simp only [ioCopy, ResponseWriter.finish, ResponseWriter.write, ResponseWriter.writeHeader,
    ResponseWriter.setHeader, ResponseWriter.new, headerDel]
  split <;> simp_all

/-! ## Properties of `downloadHandler` -/

/-- C1 (amended): for a stored file of size `n` and integers with
`0 ≤ start ≤ end ≤ n-1` where `end` is not zero (or the file has one byte), the
header `Range: bytes=<start>-<end>` gets status 206,
`Content-Range: bytes <start>-<end>/<n>` and `Content-Length: <end-start+1>`,
with exactly the two numbers the client wrote. -/
theorem range_request_status_and_headers (fs : FS) (r : Request) (file : FileNode)
    (n start stop : Int)
    (hopen : osOpen fs (resourcePath r.urlPath) = some file)
    (hfile : StoredFile file n)
    (hr : r.range = rangeValue start stop)
    (h0 : 0 ≤ start) (h1 : start ≤ stop) (h2 : stop ≤ n - 1)
    (h3 : stop ≠ 0 ∨ n = 1) :
    (serveDownload fs r).status = 206 ∧
    headerGet (serveDownload fs r).sentHeader "Content-Range".toList =
      some ("bytes ".toList ++ formatInt start ++ "-".toList ++ formatInt stop ++
        "/".toList ++ formatInt n) ∧
    headerGet (serveDownload fs r).sentHeader "Content-Length".toList =
      some (formatInt (stop - start + 1)) := by
  obtain ⟨_, hsize, _, hn⟩ := hfile
  have hs : IsInt64 start := ⟨by omega, by omega⟩
  have he : IsInt64 stop := ⟨by omega, by omega⟩
  have hscan : sscanfRange r.range = (start, stop) := by
    rw [hr]; exact sscanfRange_rangeValue start stop hs he
  have heff : effectiveEnd n stop = stop := by
    unfold effectiveEnd
    split <;> omega
  have hne : r.range ≠ [] := by rw [hr]; exact rangeValue_ne_nil _ _
  have hok : ¬ ((sscanfRange r.range).1 > effectiveEnd n (sscanfRange r.range).2 ∨
      (sscanfRange r.range).1 < 0 ∨ effectiveEnd n (sscanfRange r.range).2 ≥ n) := by
    rw [hscan]; simp only [heff]; omega
  rw [serveDownload_satisfiable fs r file n hopen hsize hne hok, hscan]
  refine ⟨?_, ?_, ?_⟩
  · simp
  · simp [headerGet, heff]
  · simp [headerGet, heff]

/-- C3 (amended): for a file whose size `n` is read and `int64` integers written
in `Range: bytes=<start>-<end>`, with `e` the effective end (`n-1` when the
written end is zero, the written end otherwise): if `start > e`, or
`start < 0`, or `e ≥ n`, the response is 416 with an empty body and no header
at all, neither committed nor left in the header map. -/
theorem unsatisfiable_range_gets_416 (fs : FS) (r : Request) (file : FileNode)
    (n start stop : Int)
    (hopen : osOpen fs (resourcePath r.urlPath) = some file)
    (hsize : file.statSize = some n)
    (hr : r.range = rangeValue start stop)
    (hs : IsInt64 start) (he : IsInt64 stop)
    (hbad : start > effectiveEnd n stop ∨ start < 0 ∨ effectiveEnd n stop ≥ n) :
    (serveDownload fs r).status = 416 ∧
    (serveDownload fs r).body = [] ∧
    ∀ key, headerGet (serveDownload fs r).sentHeader key = none ∧
      headerGet (serveDownload fs r).header key = none := by
  have hscan : sscanfRange r.range = (start, stop) := by
    rw [hr]; exact sscanfRange_rangeValue start stop hs he
  have hne : r.range ≠ [] := by rw [hr]; exact rangeValue_ne_nil _ _
  rw [serveDownload_unsatisfiable fs r file n hopen hsize hne (by rw [hscan]; exact hbad)]
  exact ⟨rfl, rfl, fun _ => ⟨rfl, rfl⟩⟩

/-- C4: for a stored file of size `n`, a request without a `Range` header (or
with an empty one) gets status 200, `Content-Length: <n>`,
`Content-Type: application/octet-stream`,
`Content-Disposition: attachment; filename=<resourceName>` and the whole file
as its body. -/
theorem no_range_serves_whole_file (fs : FS) (r : Request) (file : FileNode) (n : Int)
    (hopen : osOpen fs (resourcePath r.urlPath) = some file)
    (hfile : StoredFile file n)
    (hr : r.range = []) :
    (serveDownload fs r).status = 200 ∧
    headerGet (serveDownload fs r).sentHeader "Content-Length".toList = some (formatInt n) ∧
    headerGet (serveDownload fs r).sentHeader "Content-Type".toList =
      some "application/octet-stream".toList ∧
    headerGet (serveDownload fs r).sentHeader "Content-Disposition".toList =
      some ("attachment; filename=".toList ++ filepathBase r.urlPath) ∧
    (serveDownload fs r).body = file.data ∧
    ((serveDownload fs r).body.length : Int) = n := by
  obtain ⟨_, hsize, hlen, _⟩ := hfile
  rw [serveDownload_whole fs r file n hopen hsize hr]
  refine ⟨rfl, ?_, ?_, ?_, rfl, hlen.symm⟩
  · simp [headerGet]
  · simp [headerGet]
  · simp [headerGet]

/-- C6: for a stored file of size `n` and `0 ≤ start < n` (so `n` is not zero), both
`Range: bytes=<start>-` and `Range: bytes=<start>-0` get status 206,
`Content-Range: bytes <start>-<n-1>/<n>`, `Content-Length: <n-start>` and the
file's bytes from offset `start` to the end of the file as body. -/
theorem open_or_zero_end_serves_to_end_of_file (fs : FS) (r : Request) (file : FileNode)
    (n start : Int)
    (hopen : osOpen fs (resourcePath r.urlPath) = some file)
    (hfile : StoredFile file n)
    (h0 : 0 ≤ start) (h1 : start < n)
    (hr : r.range = openRangeValue start ∨ r.range = rangeValue start 0) :
    (serveDownload fs r).status = 206 ∧
    headerGet (serveDownload fs r).sentHeader "Content-Range".toList =
      some ("bytes ".toList ++ formatInt start ++ "-".toList ++ formatInt (n - 1) ++
        "/".toList ++ formatInt n) ∧
    headerGet (serveDownload fs r).sentHeader "Content-Length".toList =
      some (formatInt (n - start)) ∧
    (serveDownload fs r).body = file.data.drop start.toNat ∧
    ((serveDownload fs r).body.length : Int) = n - start := by
  obtain ⟨_, hsize, hlen, hn63⟩ := hfile
  have hs : IsInt64 start := ⟨by omega, by omega⟩
  have hscan : sscanfRange r.range = (start, 0) := by
    rcases hr with hr | hr
    · rw [hr]; exact sscanfRange_openRangeValue start hs
    · rw [hr]; exact sscanfRange_rangeValue start 0 hs (by unfold IsInt64; omega)
  have hne : r.range ≠ [] := by
    rcases hr with hr | hr
    · rw [hr]; exact openRangeValue_ne_nil _
    · rw [hr]; exact rangeValue_ne_nil _ _
  have heff : effectiveEnd n 0 = n - 1 := rfl
  have hok : ¬ ((sscanfRange r.range).1 > effectiveEnd n (sscanfRange r.range).2 ∨
      (sscanfRange r.range).1 < 0 ∨ effectiveEnd n (sscanfRange r.range).2 ≥ n) := by
    rw [hscan]; simp only [heff]; omega
  rw [serveDownload_satisfiable fs r file n hopen hsize hne hok, hscan]
  have hcl : n - 1 - start + 1 = n - start := by omega
  refine ⟨?_, ?_, ?_, ?_, ?_⟩
  · simp
  · simp [headerGet, heff]
  · simp [headerGet, heff, hcl]
  · simp
  · simp only [List.length_drop]
    omega

/-- Witness of C1 (amended): `Range: bytes=7-12` on `hello.txt` (13 bytes). -/
theorem range_request_status_and_headers_witness :
    ((0 : Int) ≤ 7 ∧ (7 : Int) ≤ 12 ∧ (12 : Int) ≤ 13 - 1) ∧
    ((serveDownload helloFS (helloRequest (rangeValue 7 12))).status = 206 ∧
    headerGet (serveDownload helloFS (helloRequest (rangeValue 7 12))).sentHeader
        "Content-Range".toList =
      some ("bytes ".toList ++ formatInt 7 ++ "-".toList ++ formatInt 12 ++
        "/".toList ++ formatInt 13) ∧
    headerGet (serveDownload helloFS (helloRequest (rangeValue 7 12))).sentHeader
        "Content-Length".toList =
      some (formatInt (12 - 7 + 1))) :=
  ⟨by decide,
   range_request_status_and_headers helloFS (helloRequest (rangeValue 7 12))
    (regularFile helloContent) 13 7 12 (by decide) (by decide) rfl (by decide) (by decide)
    (by decide) (by decide)⟩

/-- Counterexample to C1 as stated: on `hello.txt` (13 bytes) the header
`Range: bytes=0-0` satisfies `0 ≤ start ≤ end ≤ n-1`, yet the response carries
`Content-Range: bytes 0-12/13` and `Content-Length: 13`, not the numbers the
client wrote. -/
theorem zero_end_is_not_echoed :
    ((0 : Int) ≤ 0 ∧ (0 : Int) ≤ 0 ∧ (0 : Int) ≤ 13 - 1) ∧
    rangeValue 0 0 = "bytes=0-0".toList ∧
    StoredFile (regularFile helloContent) 13 ∧
    osOpen helloFS (resourcePath (helloRequest (rangeValue 0 0)).urlPath) =
      some (regularFile helloContent) ∧
    headerGet (serveDownload helloFS (helloRequest (rangeValue 0 0))).sentHeader
        "Content-Range".toList = some "bytes 0-12/13".toList ∧
    headerGet (serveDownload helloFS (helloRequest (rangeValue 0 0))).sentHeader
        "Content-Range".toList ≠
      some ("bytes ".toList ++ formatInt 0 ++ "-".toList ++ formatInt 0 ++
        "/".toList ++ formatInt 13) ∧
    headerGet (serveDownload helloFS (helloRequest (rangeValue 0 0))).sentHeader
        "Content-Length".toList = some "13".toList ∧
    headerGet (serveDownload helloFS (helloRequest (rangeValue 0 0))).sentHeader
        "Content-Length".toList ≠ some (formatInt (0 - 0 + 1)) := by
  decide

/-- C2 (the code at the failing input): on `hello.txt` (13 bytes) with
`Range: bytes=0-4` the handler declares `Content-Length: 5` and
`Content-Range: bytes 0-4/13`, and then writes all 13 bytes of the file:
the bytes at offsets 5..12 follow the requested range. -/
theorem range_body_runs_past_end :
    (serveDownload helloFS (helloRequest "bytes=0-4".toList)).status = 206 ∧
    headerGet (serveDownload helloFS (helloRequest "bytes=0-4".toList)).sentHeader
        "Content-Length".toList = some "5".toList ∧
    headerGet (serveDownload helloFS (helloRequest "bytes=0-4".toList)).sentHeader
        "Content-Range".toList = some "bytes 0-4/13".toList ∧
    (serveDownload helloFS (helloRequest "bytes=0-4".toList)).body =
      utf8Bytes "Hello, World!".toList ∧
    (serveDownload helloFS (helloRequest "bytes=0-4".toList)).body.length = 13 ∧
    (serveDownload helloFS (helloRequest "bytes=0-4".toList)).body ≠
      utf8Bytes "Hello".toList := by
  decide

/-- Every request with a non-empty `Range` value that passes the validation is
answered with the file's bytes from `start` to the end of the file, whatever
end was requested, and the committed headers hold neither `Content-Type` nor
`Content-Disposition`. -/
theorem satisfiable_range_body_and_headers (fs : FS) (r : Request) (file : FileNode) (n : Int)
    (hopen : osOpen fs (resourcePath r.urlPath) = some file)
    (hfile : StoredFile file n) (hne : r.range ≠ [])
    (hok : ¬ ((sscanfRange r.range).1 > effectiveEnd n (sscanfRange r.range).2 ∨
      (sscanfRange r.range).1 < 0 ∨ effectiveEnd n (sscanfRange r.range).2 ≥ n)) :
    (serveDownload fs r).status = 206 ∧
    (serveDownload fs r).body = file.data.drop (sscanfRange r.range).1.toNat ∧
    ((serveDownload fs r).body.length : Int) = n - (sscanfRange r.range).1 ∧
    headerGet (serveDownload fs r).sentHeader "Content-Type".toList = none ∧
    headerGet (serveDownload fs r).sentHeader "Content-Disposition".toList = none := by
  obtain ⟨_, hsize, hlen, _⟩ := hfile
  rw [serveDownload_satisfiable fs r file n hopen hsize hne hok]
  refine ⟨?_, ?_, ?_, ?_, ?_⟩
  · simp
  · simp
  · simp only [List.length_drop]
    omega
  · simp [headerGet]
  · simp [headerGet]

/-- Witness of C3 (amended): `Range: bytes=0-100` on `hello.txt` (13 bytes). -/
theorem unsatisfiable_range_gets_416_witness :
    ((0 : Int) > effectiveEnd 13 100 ∨ (0 : Int) < 0 ∨ effectiveEnd 13 100 ≥ 13) ∧
    ((serveDownload helloFS (helloRequest (rangeValue 0 100))).status = 416 ∧
    (serveDownload helloFS (helloRequest (rangeValue 0 100))).body = [] ∧
    ∀ key, headerGet (serveDownload helloFS (helloRequest (rangeValue 0 100))).sentHeader key
        = none ∧
      headerGet (serveDownload helloFS (helloRequest (rangeValue 0 100))).header key = none) :=
  ⟨by decide,
   unsatisfiable_range_gets_416 helloFS (helloRequest (rangeValue 0 100))
    (regularFile helloContent) 13 0 100 (by decide) rfl rfl (by decide) (by decide)
    (by decide)⟩

/-- Counterexample to C3 as stated: on `hello.txt` (13 bytes) the header
`Range: bytes=5-0` has `start > end`, yet the response is 206 with a body and
with `Content-Range` and `Content-Length` set; and the header
`Range: bytes=0-99999999999999999999`, whose end is beyond `int64` and beyond
the file size, is answered 206 with the whole file. -/
theorem start_above_zero_end_is_served :
    (5 : Int) > 0 ∧
    rangeValue 5 0 = "bytes=5-0".toList ∧
    StoredFile (regularFile helloContent) 13 ∧
    osOpen helloFS (resourcePath (helloRequest (rangeValue 5 0)).urlPath) =
      some (regularFile helloContent) ∧
    (serveDownload helloFS (helloRequest (rangeValue 5 0))).status = 206 ∧
    (serveDownload helloFS (helloRequest (rangeValue 5 0))).status ≠ 416 ∧
    (serveDownload helloFS (helloRequest (rangeValue 5 0))).body =
      utf8Bytes ", World!".toList ∧
    headerGet (serveDownload helloFS (helloRequest (rangeValue 5 0))).sentHeader
        "Content-Range".toList = some "bytes 5-12/13".toList ∧
    headerGet (serveDownload helloFS (helloRequest (rangeValue 5 0))).sentHeader
        "Content-Length".toList = some "8".toList ∧
    (99999999999999999999 : Int) ≥ 13 ∧
    rangeValue 0 99999999999999999999 = "bytes=0-99999999999999999999".toList ∧
    (serveDownload helloFS (helloRequest (rangeValue 0 99999999999999999999))).status = 206 ∧
    (serveDownload helloFS (helloRequest (rangeValue 0 99999999999999999999))).body =
      utf8Bytes "Hello, World!".toList := by
  decide

/-- Witness of C4: `hello.txt` without a `Range` header. -/
theorem no_range_serves_whole_file_witness :
    (serveDownload helloFS (helloRequest [])).status = 200 ∧
    headerGet (serveDownload helloFS (helloRequest [])).sentHeader "Content-Length".toList =
      some (formatInt 13) ∧
    headerGet (serveDownload helloFS (helloRequest [])).sentHeader "Content-Type".toList =
      some "application/octet-stream".toList ∧
    headerGet (serveDownload helloFS (helloRequest [])).sentHeader
        "Content-Disposition".toList =
      some ("attachment; filename=".toList ++ filepathBase (helloRequest []).urlPath) ∧
    (serveDownload helloFS (helloRequest [])).body = (regularFile helloContent).data ∧
    ((serveDownload helloFS (helloRequest [])).body.length : Int) = 13 :=
  no_range_serves_whole_file helloFS (helloRequest []) (regularFile helloContent) 13
    (by decide) (by decide) rfl

/-- C5 (the code at the failing input): on `hello.txt` with
`Range: bytes=7-12` the headers committed with status 206 are `Content-Range`
and `Content-Length` only; `Content-Type` and `Content-Disposition` are put in
the header map after `WriteHeader` and are not part of the response, while the
200 response for the same resource carries both. -/
theorem range_response_lacks_type_and_disposition :
    (serveDownload helloFS (helloRequest "bytes=7-12".toList)).status = 206 ∧
    (serveDownload helloFS (helloRequest "bytes=7-12".toList)).sentHeader =
      [("Content-Length".toList, "6".toList),
       ("Content-Range".toList, "bytes 7-12/13".toList)] ∧
    headerGet (serveDownload helloFS (helloRequest "bytes=7-12".toList)).sentHeader
        "Content-Type".toList = none ∧
    headerGet (serveDownload helloFS (helloRequest "bytes=7-12".toList)).sentHeader
        "Content-Disposition".toList = none ∧
    headerGet (serveDownload helloFS (helloRequest "bytes=7-12".toList)).header
        "Content-Type".toList = some "application/octet-stream".toList ∧
    (serveDownload helloFS (helloRequest [])).status = 200 ∧
    headerGet (serveDownload helloFS (helloRequest [])).sentHeader "Content-Type".toList =
      some "application/octet-stream".toList ∧
    headerGet (serveDownload helloFS (helloRequest [])).sentHeader
        "Content-Disposition".toList = some "attachment; filename=hello.txt".toList := by
  decide

/-- Witness of C6: `Range: bytes=5-` on `hello.txt` (13 bytes). -/
theorem open_or_zero_end_serves_to_end_of_file_witness :
    ((0 : Int) ≤ 5 ∧ (5 : Int) < 13) ∧
    ((serveDownload helloFS (helloRequest (openRangeValue 5))).status = 206 ∧
    headerGet (serveDownload helloFS (helloRequest (openRangeValue 5))).sentHeader
        "Content-Range".toList =
      some ("bytes ".toList ++ formatInt 5 ++ "-".toList ++ formatInt (13 - 1) ++
        "/".toList ++ formatInt 13) ∧
    headerGet (serveDownload helloFS (helloRequest (openRangeValue 5))).sentHeader
        "Content-Length".toList = some (formatInt (13 - 5)) ∧
    (serveDownload helloFS (helloRequest (openRangeValue 5))).body =
      (regularFile helloContent).data.drop (5 : Int).toNat ∧
    ((serveDownload helloFS (helloRequest (openRangeValue 5))).body.length : Int) = 13 - 5) :=
  ⟨by decide,
   open_or_zero_end_serves_to_end_of_file helloFS (helloRequest (openRangeValue 5))
    (regularFile helloContent) 13 5 (by decide) (by decide) (by decide) (by decide)
    (Or.inl rfl)⟩

/-! ## What follows a comma is never scanned -/

theorem skipSpace_append_comma (s rest : Str) :
    skipSpace (s ++ ',' :: rest) = (skipSpace s).map (fun r => r ++ ',' :: rest) := by
  induction s with
  | nil => exact skipSpace_of_not_space ',' rest (by decide)
  | cons c s ih =>
    by_cases hcr : c = '\r'
    · subst hcr
      have h1 : skipSpace ('\r' :: (s ++ ',' :: rest)) = skipSpace (s ++ ',' :: rest) := by
        simp only [skipSpace]
        split
        · rfl
        · simp [isSpace]
      have h2 : skipSpace ('\r' :: s) = skipSpace s := by
        simp only [skipSpace]
        split
        · rfl
        · simp [isSpace]
      rw [List.cons_append, h1, h2, ih]
    · simp only [List.cons_append, skipSpace, hcr, false_and, if_false]
      by_cases hn : c = '\n'
      · simp [hn]
      · simp only [hn, if_false]
        by_cases hsp : isSpace c = true
        · simp only [hsp, if_true]; exact ih
        · simp [hsp]

theorem takeWhile_append_stop (p : Char → Bool) (l rest : Str) (x : Char) (hx : p x = false) :
    (l ++ x :: rest).takeWhile p = l.takeWhile p ∧
    (l ++ x :: rest).dropWhile p = l.dropWhile p ++ x :: rest := by
  induction l with
  | nil => simp [List.takeWhile, List.dropWhile, hx]
  | cons a l ih =>
    by_cases ha : p a = true
    · simp [List.takeWhile, List.dropWhile, ha, ih]
    · simp [List.takeWhile, List.dropWhile, ha]

theorem scanInt_append_comma (s rest : Str) :
    scanInt (s ++ ',' :: rest) =
      (scanInt s).map (fun vr => (vr.1, vr.2 ++ ',' :: rest)) := by
  unfold scanInt
  rw [skipSpace_append_comma]
  cases hsk : skipSpace s with
  | none => rfl
  | some t =>
    cases t with
    | nil => simp [isSign, isDecimalDigit]
    | cons c t =>
      simp only [Option.map_some', List.cons_append]
      by_cases hsg : isSign c = true
      · simp only [hsg, if_true]
        cases t with
        | nil => simp [isDecimalDigit]
        | cons d u =>
          obtain ⟨h1, h2⟩ := takeWhile_append_stop isDecimalDigit (d :: u) rest ','
            (by decide)
          simp only [List.cons_append]
          by_cases hd : isDecimalDigit d = true
          · simp only [hd, if_true]
            rw [← List.cons_append, h1, h2]
            cases parseInt64 (c == '-') (List.takeWhile isDecimalDigit (d :: u)) <;> rfl
          · simp [hd]
      · simp only [hsg, if_false, Bool.false_eq_true]
        obtain ⟨h1, h2⟩ := takeWhile_append_stop isDecimalDigit (c :: t) rest ','
          (by decide)
        by_cases hd : isDecimalDigit c = true
        · simp only [hd, if_true]
          rw [← List.cons_append, h1, h2]
          cases parseInt64 (c == '-') (List.takeWhile isDecimalDigit (c :: t)) <;> rfl
        · simp [hd]

theorem advanceLiteral_append_comma (lit s rest : Str) (hlit : ',' ∉ lit) :
    advanceLiteral lit (s ++ ',' :: rest) =
      (advanceLiteral lit s).map (fun r => r ++ ',' :: rest) := by
  induction lit generalizing s with
  | nil => cases s <;> rfl
  | cons f fs ih =>
    have hf : f ≠ ',' := fun h => hlit (by rw [h]; exact List.mem_cons_self _ _)
    have hfs : ',' ∉ fs := fun h => hlit (List.mem_cons_of_mem _ h)
    cases s with
    | nil => simp [advanceLiteral, hf]
    | cons c s =>
      simp only [List.cons_append, advanceLiteral]
      by_cases hfc : f = c
      · simp only [hfc, if_true]; exact ih s hfs
      · simp [hfc]

/-- The scan of a `Range` value stops at the first comma at the latest: the
text from a comma on does not change the scanned numbers. -/
theorem sscanfRange_append_comma (s rest : Str) :
    sscanfRange (s ++ ',' :: rest) = sscanfRange s := by
  unfold sscanfRange
  rw [advanceLiteral_append_comma _ s rest (by decide)]
  cases advanceLiteral "bytes=".toList s with
  | none => rfl
  | some r1 =>
    simp only [Option.map_some']
    rw [scanInt_append_comma]
    cases scanInt r1 with
    | none => rfl
    | some vr =>
      obtain ⟨v, r2⟩ := vr
      simp only [Option.map_some']
      rw [advanceLiteral_append_comma _ r2 rest (by decide)]
      cases advanceLiteral "-".toList r2 with
      | none => rfl
      | some r3 =>
        simp only [Option.map_some']
        rw [scanInt_append_comma]
        cases scanInt r3 with
        | none => rfl
        | some wr => rfl

/-- The handler reads the request through its URL path, through whether the
`Range` value is empty, and through the numbers scanned from it. -/
theorem serveDownload_congr (fs : FS) (r1 r2 : Request)
    (hpath : r1.urlPath = r2.urlPath)
    (hne1 : r1.range ≠ []) (hne2 : r2.range ≠ [])
    (hscan : sscanfRange r1.range = sscanfRange r2.range) :
    serveDownload fs r1 = serveDownload fs r2 := by
  simp only [serveDownload, downloadHandler, hpath, hne1, hne2, hscan, ne_eq,
    not_false_eq_true, if_true]

/-- C9 (amended): a multi-range header `bytes=<first>,<rest>` gets exactly the
response of the single-range header `bytes=<first>`: the text from the first
comma on is ignored, so the status is 416 only when that first range is not
satisfiable, and 206 with part of the file when it is. -/
theorem multi_range_is_served_as_its_first_range (fs : FS) (urlPath first rest : Str) :
    serveDownload fs (Request.get urlPath ("bytes=".toList ++ first ++ ',' :: rest)) =
      serveDownload fs (Request.get urlPath ("bytes=".toList ++ first)) := by
  apply serveDownload_congr
  · rfl
  · simp [Request.get]
  · simp [Request.get]
  · exact sscanfRange_append_comma _ _

/-- Counterexample to C9 as stated: on `hello.txt` (13 bytes) the multi-range
header `Range: bytes=0-10,20-30` gets status 206 and the file's bytes, not 416. -/
theorem multi_range_is_not_rejected :
    StoredFile (regularFile helloContent) 13 ∧
    osOpen helloFS (resourcePath (helloRequest "bytes=0-10,20-30".toList).urlPath) =
      some (regularFile helloContent) ∧
    (serveDownload helloFS (helloRequest "bytes=0-10,20-30".toList)).status = 206 ∧
    (serveDownload helloFS (helloRequest "bytes=0-10,20-30".toList)).status ≠ 416 ∧
    headerGet (serveDownload helloFS (helloRequest "bytes=0-10,20-30".toList)).sentHeader
        "Content-Range".toList = some "bytes 0-10/13".toList ∧
    (serveDownload helloFS (helloRequest "bytes=0-10,20-30".toList)).body =
      utf8Bytes "Hello, World!".toList := by
  decide

/-! ## Not found -/

/-- C8: the response is 404 exactly when the file at the resource path cannot
be opened; its body is then the fixed text `File not found` and a newline,
whatever the file system holds; and when the file opens and its size is read,
the status is 200, 206 or 416. -/
theorem not_found_iff_cannot_open (fs : FS) (r : Request) :
    ((serveDownload fs r).status = 404 ↔ osOpen fs (resourcePath r.urlPath) = none) ∧
    (osOpen fs (resourcePath r.urlPath) = none →
      (serveDownload fs r).body = utf8Bytes "File not found\n".toList) ∧
    (∀ file n, osOpen fs (resourcePath r.urlPath) = some file → file.statSize = some n →
      (serveDownload fs r).status = 200 ∨ (serveDownload fs r).status = 206 ∨
        (serveDownload fs r).status = 416) := by
  cases hopen : osOpen fs (resourcePath r.urlPath) with
  | none =>
    have hresp : serveDownload fs r =
        { header := [("X-Content-Type-Options".toList, "nosniff".toList),
            ("Content-Type".toList, "text/plain; charset=utf-8".toList)],
          wroteHeader := true, status := 404,
          sentHeader := [("X-Content-Type-Options".toList, "nosniff".toList),
            ("Content-Type".toList, "text/plain; charset=utf-8".toList)],
          body := utf8Bytes "File not found\n".toList } := by
      unfold resourcePath at hopen
      simp only [serveDownload, downloadHandler, hopen]
      decide
    rw [hresp]
    exact ⟨⟨fun _ => rfl, fun _ => rfl⟩, fun _ => rfl, fun _ _ h => by simp at h⟩
  | some file =>
    have key : ∀ n, file.statSize = some n →
        (serveDownload fs r).status = 200 ∨ (serveDownload fs r).status = 206 ∨
          (serveDownload fs r).status = 416 := by
      intro n hsize
      by_cases hr : r.range = []
      · rw [serveDownload_whole fs r file n hopen hsize hr]; exact Or.inl rfl
      · by_cases hbad : (sscanfRange r.range).1 > effectiveEnd n (sscanfRange r.range).2 ∨
            (sscanfRange r.range).1 < 0 ∨ effectiveEnd n (sscanfRange r.range).2 ≥ n
        · rw [serveDownload_unsatisfiable fs r file n hopen hsize hr hbad]
          exact Or.inr (Or.inr rfl)
        · rw [serveDownload_satisfiable fs r file n hopen hsize hr hbad]
          exact Or.inr (Or.inl rfl)
    refine ⟨⟨fun h => ?_, fun h => by simp at h⟩, fun h => by simp at h, ?_⟩
    · exfalso
      cases hsize : file.statSize with
      | none =>
        have hresp : (serveDownload fs r).status = 500 := by
          unfold resourcePath at hopen
          simp only [serveDownload, downloadHandler, hopen, hsize]
          decide
        rw [hresp] at h
        exact absurd h (by decide)
      | some n =>
        rcases key n hsize with h2 | h2 | h2 <;> rw [h2] at h <;> exact absurd h (by decide)
    · intro file2 n hf hsize
      simp only [Option.some.injEq] at hf
      subst hf
      exact key n hsize

/-- Witness of C8: a name with no stored file. -/
theorem not_found_iff_cannot_open_witness :
    osOpen helloFS (resourcePath (Request.get "/download/missing.txt".toList []).urlPath) =
      none ∧
    (serveDownload helloFS (Request.get "/download/missing.txt".toList [])).status = 404 ∧
    (serveDownload helloFS (Request.get "/download/missing.txt".toList [])).body =
      utf8Bytes "File not found\n".toList :=
  ⟨by decide,
   (not_found_iff_cannot_open helloFS
      (Request.get "/download/missing.txt".toList [])).1.2 (by decide),
   (not_found_iff_cannot_open helloFS
      (Request.get "/download/missing.txt".toList [])).2.1 (by decide)⟩

/-! ## The path that is opened -/

/-- C7 (the code at the failing input): for the URL path `/download/..` the
final segment is `..`, the joined path is `.`, the parent of the storage root,
and the handler opens it: the response is 200 with the directory's size as
`Content-Length`, not 404.  (A `..` before the final segment is dropped:
`/download/../secret.txt` is looked up as `files/secret.txt`.) -/
theorem dotdot_segment_opens_parent_of_storage_root :
    filepathBase "/download/..".toList = "..".toList ∧
    resourcePath "/download/..".toList = ".".toList ∧
    ¬ InsideStorageRoot (resourcePath "/download/..".toList) ∧
    osOpen workingDirFS (resourcePath "/download/..".toList) = some directoryNode ∧
    (serveDownload workingDirFS (Request.get "/download/..".toList [])).status = 200 ∧
    headerGet (serveDownload workingDirFS (Request.get "/download/..".toList [])).sentHeader
        "Content-Length".toList = some "4096".toList ∧
    headerGet (serveDownload workingDirFS (Request.get "/download/..".toList [])).sentHeader
        "Content-Disposition".toList = some "attachment; filename=..".toList ∧
    resourcePath "/download/../secret.txt".toList = "files/secret.txt".toList ∧
    (serveDownload workingDirFS (Request.get "/download/../secret.txt".toList [])).status
      = 404 := by
  decide

/-! ## Stored files are never changed -/

theorem fsPut_other (fs : FS) (target path : Str) (node : FileNode) (h : path ≠ target) :
    fsPut fs target node path = fs path := by
  simp [fsPut, h]

theorem fsRemove_other (fs : FS) (target path : Str) (h : path ≠ target) :
    fsRemove fs target path = fs path := by
  simp [fsRemove, h]

/-- The upload handler leaves every existing node as it is. -/
theorem uploadHandler_keeps (env : Env) (fs : FS) (r : Request) (w : ResponseWriter)
    (path : Str) (node : FileNode) (h : fs path = some node) :
    (uploadHandler env fs r w).1 path = some node := by
  unfold uploadHandler
  by_cases hm : r.method ≠ "POST".toList
  · rw [if_pos hm]; exact h
  · rw [if_neg hm]
    by_cases hp : r.multipartOk = false
    · rw [if_pos hp]; exact h
    · rw [if_neg hp]
      cases hf : r.formFile with
      | error msg => exact h
      | ok fc =>
        obtain ⟨filename, content⟩ := fc
        dsimp only
        by_cases hstat : osStat fs (filepathJoin uploadPath filename) = true
        · rw [if_pos hstat]; exact h
        · rw [if_neg hstat]
          have hne : path ≠ filepathJoin uploadPath filename := by
            intro heq
            apply hstat
            rw [← heq]
            simp [osStat, h]
          cases hc : env.createError with
          | some msg => exact h
          | none =>
            cases hcp : env.copyError with
            | some wm =>
              obtain ⟨written, msg⟩ := wm
              dsimp only
              by_cases hrm : env.removeFails = true
              · rw [if_pos hrm, fsPut_other _ _ _ _ hne, fsPut_other _ _ _ _ hne]; exact h
              · rw [if_neg hrm, fsRemove_other _ _ _ hne, fsPut_other _ _ _ _ hne,
                  fsPut_other _ _ _ _ hne]
                exact h
            | none =>
              dsimp only
              rw [fsPut_other _ _ _ _ hne, fsPut_other _ _ _ _ hne]; exact h

/-- An upload whose file name is taken is answered 400 and changes nothing. -/
theorem uploadHandler_existing (env : Env) (fs : FS) (r : Request)
    (filename : Str) (content : List Byte)
    (hm : r.method = "POST".toList) (hp : r.multipartOk = true)
    (hf : r.formFile = .ok (filename, content))
    (hex : osStat fs (filepathJoin uploadPath filename) = true) :
    (invoke .upload env fs r).2.status = 400 ∧ (invoke .upload env fs r).1 = fs := by
  have hresp : invoke .upload env fs r =
      (fs, (httpError ResponseWriter.new "File already exists".toList 400).finish) := by
    simp only [invoke, uploadHandler, hm, hp, hf, hex, ne_eq, not_true_eq_false, if_false,
      if_true, Bool.true_eq_false]
  rw [hresp]
  exact ⟨rfl, rfl⟩

/-- C10: a single invocation of any of the four handlers leaves every node of
the file system that existed before the request in place and unchanged; an
upload whose file name names an existing path is answered with status 400 and
leaves the whole file system as it was. -/
theorem stored_files_are_immutable (route : Route) (env : Env) (fs : FS) (r : Request) :
    (∀ path node, fs path = some node → (invoke route env fs r).1 path = some node) ∧
    (∀ filename content, r.method = "POST".toList → r.multipartOk = true →
      r.formFile = .ok (filename, content) →
      osStat fs (filepathJoin uploadPath filename) = true →
      (invoke .upload env fs r).2.status = 400 ∧ (invoke .upload env fs r).1 = fs) := by
  refine ⟨fun path node h => ?_, fun filename content hm hp hf hex =>
    uploadHandler_existing env fs r filename content hm hp hf hex⟩
  cases route with
  | listFiles => exact h
  | upload => exact uploadHandler_keeps env fs r ResponseWriter.new path node h
  | download => exact h
  | checkFilename =>
    simp only [invoke, checkFilenameHandler]
    split <;> exact h

/-- Witness of C10: with `hello.txt` stored, an upload of `new.txt` whose copy
fails keeps `hello.txt`, and an upload named `hello.txt` is answered 400 and
changes nothing. -/
theorem stored_files_are_immutable_witness :
    helloFS "files/hello.txt".toList = some (regularFile helloContent) ∧
    (invoke .upload failingCopyEnv helloFS
      (uploadRequest "new.txt".toList (utf8Bytes "fresh".toList))).1
        "files/hello.txt".toList = some (regularFile helloContent) ∧
    osStat helloFS (filepathJoin uploadPath "hello.txt".toList) = true ∧
    ((invoke .upload calmEnv helloFS
        (uploadRequest "hello.txt".toList (utf8Bytes "other".toList))).2.status = 400 ∧
      (invoke .upload calmEnv helloFS
        (uploadRequest "hello.txt".toList (utf8Bytes "other".toList))).1 = helloFS) :=
  ⟨by decide,
   (stored_files_are_immutable .upload failingCopyEnv helloFS
      (uploadRequest "new.txt".toList (utf8Bytes "fresh".toList))).1
      "files/hello.txt".toList (regularFile helloContent) (by decide),
   by decide,
   (stored_files_are_immutable .upload calmEnv helloFS
      (uploadRequest "hello.txt".toList (utf8Bytes "other".toList))).2
      "hello.txt".toList (utf8Bytes "other".toList) rfl rfl rfl (by decide)⟩

/-! ## Which final segments leave the storage root -/

theorem takeWhile_no_slash (b : Str) (h : '/' ∉ b) :
    b.takeWhile (fun x => x != '/') = b ∧ b.dropWhile (fun x => x != '/') = [] := by
  induction b with
  | nil => simp
  | cons a t ih =>
    have ha : (a != '/') = true := by
      have : a ≠ '/' := fun hh => h (by rw [hh]; exact List.mem_cons_self _ _)
      simp [this]
    have ht := ih (fun hh => h (List.mem_cons_of_mem _ hh))
    simp [List.takeWhile, List.dropWhile, ha, ht]

theorem cleanLoop_nil (rooted : Bool) (fuel : Nat) (out : Str) (dotdot : Nat) :
    cleanLoop rooted fuel [] out dotdot = out := by
  cases fuel <;> rfl

theorem cleanLoop_slash (rooted : Bool) (fuel : Nat) (tl out : Str) (dotdot : Nat) :
    cleanLoop rooted (fuel + 1) ('/' :: tl) out dotdot = cleanLoop rooted fuel tl out dotdot := by
  rw [cleanLoop]
  simp

theorem cleanLoop_dot (rooted : Bool) (fuel : Nat) (tl out : Str) (dotdot : Nat)
    (h : tl = [] ∨ tl.head? = some '/') :
    cleanLoop rooted (fuel + 1) ('.' :: tl) out dotdot = cleanLoop rooted fuel tl out dotdot := by
  rw [cleanLoop]
  simp [h]

theorem cleanLoop_element (fuel : Nat) (c : Char) (tl out : Str) (dotdot : Nat)
    (hc : c ≠ '/') (hout : out ≠ [])
    (hdot : ¬ (c = '.' ∧ (tl = [] ∨ tl.head? = some '/')))
    (hdotdot : ¬ (c = '.' ∧ tl.head? = some '.' ∧ (tl.tail = [] ∨ tl.tail.head? = some '/'))) :
    cleanLoop false (fuel + 1) (c :: tl) out dotdot =
      cleanLoop false fuel ((c :: tl).dropWhile (fun x => x != '/'))
        (out ++ '/' :: (c :: tl).takeWhile (fun x => x != '/')) dotdot := by
  rw [cleanLoop]
  simp only [hc, if_false, hdot, hdotdot]
  have : out.length ≠ 0 := by simpa using hout
  simp [this]

theorem cleanLoop_first_element (fuel : Nat) (c : Char) (tl : Str) (dotdot : Nat)
    (hc : c ≠ '/')
    (hdot : ¬ (c = '.' ∧ (tl = [] ∨ tl.head? = some '/')))
    (hdotdot : ¬ (c = '.' ∧ tl.head? = some '.' ∧ (tl.tail = [] ∨ tl.tail.head? = some '/'))) :
    cleanLoop false (fuel + 1) (c :: tl) [] dotdot =
      cleanLoop false fuel ((c :: tl).dropWhile (fun x => x != '/'))
        ((c :: tl).takeWhile (fun x => x != '/')) dotdot := by
  rw [cleanLoop]
  simp only [hc, if_false, hdot, hdotdot]
  simp

theorem dropWhile_length_le (p : Char → Bool) (l : Str) :
    (l.dropWhile p).length ≤ l.length := by
  induction l with
  | nil => simp
  | cons a t ih =>
    simp only [List.dropWhile]
    split
    · simp only [List.length_cons]; omega
    · simp

/-- One iteration of the loop of `filepath.Clean` on a non-empty rest. -/
theorem cleanLoop_succ_cons (rooted : Bool) (fuel : Nat) (c : Char) (tl out : Str)
    (dotdot : Nat) :
    cleanLoop rooted (fuel + 1) (c :: tl) out dotdot =
      if c = '/' then
        cleanLoop rooted fuel tl out dotdot
      else if c = '.' ∧ (tl = [] ∨ tl.head? = some '/') then
        cleanLoop rooted fuel tl out dotdot
      else if c = '.' ∧ tl.head? = some '.' ∧
          (tl.tail = [] ∨ tl.tail.head? = some '/') then
        if out.length > dotdot then
          cleanLoop rooted fuel tl.tail (backtrack out dotdot) dotdot
        else if (!rooted) = true then
          cleanLoop rooted fuel tl.tail
            ((if out.length > 0 then out ++ ['/'] else out) ++ ['.', '.'])
            ((if out.length > 0 then out ++ ['/'] else out) ++ ['.', '.']).length
        else
          cleanLoop rooted fuel tl.tail out dotdot
      else
        cleanLoop rooted fuel ((c :: tl).dropWhile (fun x => x != '/'))
          ((if (rooted = true ∧ out.length ≠ 1) ∨ (¬ rooted = true ∧ out.length ≠ 0) then
              out ++ ['/']
            else out) ++ (c :: tl).takeWhile (fun x => x != '/')) dotdot := by
  rw [cleanLoop]

/-- The loop of `filepath.Clean` never runs out of iterations: with at least as
much fuel as unread bytes, more fuel gives the same result. -/
theorem cleanLoop_fuel (rooted : Bool) (fuel : Nat) (rest out : Str) (dotdot : Nat)
    (h : rest.length ≤ fuel) :
    cleanLoop rooted (fuel + 1) rest out dotdot = cleanLoop rooted fuel rest out dotdot := by
  induction fuel generalizing rest out dotdot with
  | zero =>
    have : rest = [] := List.length_eq_zero.mp (Nat.le_zero.mp h)
    subst this
    rfl
  | succ f ih =>
    cases rest with
    | nil => rfl
    | cons c tl =>
      have htl : tl.length ≤ f := by simpa using h
      have htt : tl.tail.length ≤ f := by
        have := List.length_tail tl
        omega
      conv_lhs => rw [cleanLoop_succ_cons]
      conv_rhs => rw [cleanLoop_succ_cons]
      by_cases h1 : c = '/'
      · rw [if_pos h1, if_pos h1]; exact ih _ _ _ htl
      · rw [if_neg h1, if_neg h1]
        by_cases h2 : c = '.' ∧ (tl = [] ∨ tl.head? = some '/')
        · rw [if_pos h2, if_pos h2]; exact ih _ _ _ htl
        · rw [if_neg h2, if_neg h2]
          by_cases h3 : c = '.' ∧ tl.head? = some '.' ∧
              (tl.tail = [] ∨ tl.tail.head? = some '/')
          · rw [if_pos h3, if_pos h3]
            by_cases h4 : out.length > dotdot
            · rw [if_pos h4, if_pos h4]; exact ih _ _ _ htt
            · rw [if_neg h4, if_neg h4]
              by_cases h5 : (!rooted) = true
              · rw [if_pos h5, if_pos h5]; exact ih _ _ _ htt
              · rw [if_neg h5, if_neg h5]; exact ih _ _ _ htt
          · rw [if_neg h3, if_neg h3]
            apply ih
            have hc : (c != '/') = true := by simp [h1]
            simp only [List.dropWhile, hc]
            exact le_trans (dropWhile_length_le _ tl) htl

theorem join_under_files (b : Str) :
    filepathJoin uploadPath b =
      (if cleanLoop false (b.length + 4) b "files".toList 0 = [] then ".".toList
       else cleanLoop false (b.length + 4) b "files".toList 0) := by
  have hloop : cleanLoop false (b.length + 8)
      ('.' :: '/' :: 'f' :: 'i' :: 'l' :: 'e' :: 's' :: '/' :: b) [] 0 =
      cleanLoop false (b.length + 4) b "files".toList 0 := by
    rw [show b.length + 8 = (b.length + 7) + 1 from rfl,
      cleanLoop_dot _ _ _ _ _ (Or.inr (List.head?_cons ..)),
      show b.length + 7 = (b.length + 6) + 1 from rfl, cleanLoop_slash,
      show b.length + 6 = (b.length + 5) + 1 from rfl,
      cleanLoop_first_element _ _ _ _ (by decide) (by simp) (by simp)]
    have h1 : List.dropWhile (fun x => x != '/') ('f' :: 'i' :: 'l' :: 'e' :: 's' :: '/' :: b) =
        '/' :: b := by
      simp [List.dropWhile]
    have h2 : List.takeWhile (fun x => x != '/') ('f' :: 'i' :: 'l' :: 'e' :: 's' :: '/' :: b) =
        "files".toList := by
      simp [List.takeWhile]
    rw [h1, h2, show b.length + 5 = (b.length + 4) + 1 from rfl, cleanLoop_slash]
  have hj : filepathJoin uploadPath b =
      filepathClean ('.' :: '/' :: 'f' :: 'i' :: 'l' :: 'e' :: 's' :: '/' :: b) := by
    unfold filepathJoin
    rw [if_pos (by decide)]
    rfl
  have hroot : ((some '.' : Option Char) == some '/') = false := by decide
  rw [hj]
  unfold filepathClean
  rw [if_neg (List.cons_ne_nil _ _)]
  simp only [List.head?_cons, List.length_cons, hroot, Bool.false_eq_true, if_false]
  rw [hloop]

theorem filepathBase_shape (path : Str) :
    filepathBase path = ".".toList ∨ filepathBase path = "/".toList ∨
      (filepathBase path ≠ [] ∧ '/' ∉ filepathBase path) := by
  unfold filepathBase
  by_cases hp : path = []
  · rw [if_pos hp]; exact Or.inl rfl
  · rw [if_neg hp]
    dsimp only
    split
    · exact Or.inr (Or.inl rfl)
    · rename_i hlast
      refine Or.inr (Or.inr ⟨hlast, ?_⟩)
      intro hmem
      have := List.mem_takeWhile_imp (List.mem_reverse.mp hmem)
      simp at this

/-- Every final segment other than `..` is joined to a path inside the storage
root. -/
theorem resourcePath_inside_unless_dotdot (urlPath : Str)
    (h : filepathBase urlPath ≠ "..".toList) :
    InsideStorageRoot (resourcePath urlPath) := by
  unfold resourcePath
  rw [join_under_files]
  rcases filepathBase_shape urlPath with hb | hb | ⟨hne, hslash⟩
  · rw [hb]; decide
  · rw [hb]; decide
  · generalize filepathBase urlPath = b at *
    cases b with
    | nil => exact absurd rfl hne
    | cons c tl =>
      have hc : c ≠ '/' := fun hh => hslash (by rw [hh]; exact List.mem_cons_self _ _)
      have htl : '/' ∉ tl := fun hh => hslash (List.mem_cons_of_mem _ hh)
      by_cases hdot : c = '.' ∧ (tl = [] ∨ tl.head? = some '/')
      · obtain ⟨rfl, htl2⟩ := hdot
        rw [show ('.' :: tl).length + 4 = (tl.length + 4) + 1 from rfl,
          cleanLoop_dot _ _ _ _ _ htl2]
        rcases htl2 with rfl | htl2
        · decide
        · exfalso
          cases tl with
          | nil => simp at htl2
          | cons d u =>
            simp only [List.head?_cons, Option.some.injEq] at htl2
            exact htl (by rw [htl2]; exact List.mem_cons_self _ _)
      · by_cases hdd : c = '.' ∧ tl.head? = some '.' ∧
            (tl.tail = [] ∨ tl.tail.head? = some '/')
        · exfalso
          obtain ⟨rfl, h1, h2⟩ := hdd
          cases tl with
          | nil => simp at h1
          | cons d u =>
            simp only [List.head?_cons, Option.some.injEq] at h1
            subst h1
            simp only [List.tail_cons] at h2
            rcases h2 with rfl | h2
            · exact h rfl
            · cases u with
              | nil => simp at h2
              | cons e v =>
                simp only [List.head?_cons, Option.some.injEq] at h2
                exact htl (by rw [h2]; simp)
        · rw [show (c :: tl).length + 4 = (tl.length + 4) + 1 from rfl,
            cleanLoop_element _ _ _ _ _ hc (by decide) hdot hdd]
          obtain ⟨ht, hd⟩ := takeWhile_no_slash (c :: tl) hslash
          rw [ht, hd, cleanLoop_nil]
          right
          simp

end GoHfs
